import Mathlib

/-!
Verification of the multi-image edit-history and batch-operation
orchestration core of the AI photo-editing application (src/App.tsx).

The React component state is embedded as an explicit `AppState` record and
each event handler as a pure state-transition function.  File payloads
(`File` objects, opaque binary blobs) are modelled as natural numbers;
image identities and display names as strings.  Asynchronous external
transform calls (`generateEditedImage` etc.) are modelled by passing their
settled outcome (`CallResult`: an error message or a produced
payload) as an argument to the handler; `handleGenerate` is additionally
split into its pre-await phase (`handleGenerateStart`) and its post-await
continuation (`handleGenerateResume`) so interleavings with other user
events during the suspension can be expressed.  UI-transient fields that
no claim mentions (crop rectangle, active tab, compare-hold flags) are
not modelled.
-/

/-- A `File` payload (an opaque encoded image blob) is modelled as a
natural number; equality of payloads models byte-for-byte equality. -/
abbrev FileBlob := Nat

/-- The per-image record of src/App.tsx (`interface ImageState`):
identity, display name, original file, history list and history cursor. -/
structure ImageState where
  id : String
  name : String
  originalFile : FileBlob
  history : List FileBlob
  historyIndex : Nat
deriving DecidableEq

/-- The component state of the `App` component restricted to the fields
the orchestration core reads and writes. -/
structure AppState where
  images : List ImageState
  activeImageId : Option String
  selectedImageIds : List String
  prompt : String
  isLoading : Bool
  loadingMessage : String
  error : Option String
  editHotspot : Option (Int × Int)
  displayHotspot : Option (Int × Int)
  previewImage : Option FileBlob
deriving DecidableEq

/-- The settled outcome of one awaited external transform call: the
fulfilled payload or the rejection's error message. -/
inductive CallResult where
  | ok (v : FileBlob)
  | error (msg : String)
deriving DecidableEq

/-- 'AI sedang bekerja...' — the default loading message. -/
def msgWorking : String := "AI sedang bekerja..."

/-- Error shown by `handleGenerate` when no image is loaded. -/
def msgNoImage : String := "Tidak ada gambar yang dimuat untuk diedit."

/-- Error shown by `handleGenerate` when the instruction text is empty. -/
def msgNoPrompt : String := "Silakan masukkan deskripsi untuk editan Anda."

/-- Error shown by `handleGenerate` when no focus point is selected. -/
def msgNoHotspot : String := "Silakan klik pada gambar untuk memilih area yang akan diedit."

/-- 'Gagal membuat gambar. <m>' — wrap for a failed retouch call. -/
def msgGenerateFailed (m : String) : String := "Gagal membuat gambar. " ++ m

/-- 'Pilih setidaknya satu gambar untuk menerapkan <op>.' -/
def msgSelectAtLeastOne (opName : String) : String :=
  "Pilih setidaknya satu gambar untuk menerapkan " ++ opName ++ "."

/-- 'Gagal menerapkan <op>. <m>' — single-target batch failure. -/
def msgSingleFailed (opName m : String) : String :=
  "Gagal menerapkan " ++ opName ++ ". " ++ m

/-- The aggregate error of a multi-target batch:
'Gagal menerapkan <op> pada <n> gambar: <names>. Gambar lainnya berhasil diperbarui.' -/
def msgBatchFailed (opName : String) (failed : List String) : String :=
  "Gagal menerapkan " ++ opName ++ " pada " ++ toString failed.length ++
    " gambar: " ++ String.intercalate ", " failed ++
    ". Gambar lainnya berhasil diperbarui."

/-- JS `String.prototype.trim`: strip leading and trailing whitespace
(modelled structurally over the character list so it is executable). -/
def jsTrim (s : String) : String :=
  String.mk (((s.data.dropWhile Char.isWhitespace).reverse.dropWhile
    Char.isWhitespace).reverse)

/-- `images.find(img => img.id === activeImageId)` — derived selector. -/
def activeImageState (s : AppState) : Option ImageState :=
  match s.activeImageId with
  | some aid => s.images.find? (fun img => img.id == aid)
  | none => none

/-- `activeImageState?.history[activeImageState.historyIndex] ?? null`. -/
def currentImage (s : AppState) : Option FileBlob :=
  (activeImageState s).bind (fun a => a.history.get? a.historyIndex)

/-- `canUndo = (activeImageState?.historyIndex ?? 0) > 0`. -/
def canUndo (s : AppState) : Bool :=
  match activeImageState s with
  | some a => decide (0 < a.historyIndex)
  | none => false

/-- `canRedo = activeImageState ? historyIndex < history.length - 1 : false`. -/
def canRedo (s : AppState) : Bool :=
  match activeImageState s with
  | some a => decide (a.historyIndex < a.history.length - 1)
  | none => false

/-- The branch-and-append step inside `addImageToHistory`:
`history.slice(0, historyIndex + 1)`, push the new file, cursor to the
new last index. -/
def appendBranch (img : ImageState) (f : FileBlob) : ImageState :=
  let newHistory := img.history.take (img.historyIndex + 1) ++ [f]
  { img with history := newHistory, historyIndex := newHistory.length - 1 }

/-- `addImageToHistory(newImageFile, imageId)` — the `setImages` updater:
map over the collection, branching the matching image's history. -/
def addImageToHistory (newImageFile : FileBlob) (imageId : String)
    (images : List ImageState) : List ImageState :=
  images.map (fun image =>
    if image.id = imageId then appendBranch image newImageFile else image)

/-- One element of the `newImages` array built by `handleImageUploads`:
id, name, originalFile = file, history = [file], historyIndex = 0.
The generated id string (name + timestamp + random) is nondeterministic
in the source and is therefore passed in as a parameter. -/
def mkImageState (id name : String) (file : FileBlob) : ImageState :=
  { id := id, name := name, originalFile := file
    history := [file], historyIndex := 0 }

/-- JS `new Set([...currentIds, id])`: insert keeping first occurrence. -/
def listInsert (id : String) (l : List String) : List String :=
  if id ∈ l then l else l ++ [id]

/-- `handleImageUploads(files)` — append the new image states, make the
first new id active when none is active, and add the FIRST new id to the
selection set (as the source does). -/
def handleImageUploads (uploads : List (String × String × FileBlob))
    (s : AppState) : AppState :=
  let newImages := uploads.map (fun u => mkImageState u.1 u.2.1 u.2.2)
  match newImages.head? with
  | some first =>
    { s with
      error := none
      images := s.images ++ newImages
      activeImageId :=
        match s.activeImageId with
        | none => some first.id
        | some a => some a
      selectedImageIds := listInsert first.id s.selectedImageIds
      editHotspot := none
      displayHotspot := none }
  | none =>
    { s with
      error := none
      images := s.images ++ newImages
      editHotspot := none
      displayHotspot := none }

/-- `handleDeleteImage(idToDelete)` — filter the entry out, reassign the
active id to the first remaining entry (`newImages[0]?.id ?? null`) when
the deleted image was active, and delete the id from the selection set. -/
def handleDeleteImage (idToDelete : String) (s : AppState) : AppState :=
  let newImages := s.images.filter (fun img => decide (img.id ≠ idToDelete))
  { s with
    images := newImages
    activeImageId :=
      if s.activeImageId = some idToDelete then
        newImages.head?.map (fun i => i.id)
      else s.activeImageId
    selectedImageIds :=
      s.selectedImageIds.filter (fun i => decide (i ≠ idToDelete)) }

/-- The precondition phase of `handleGenerate`, up to (and including) the
state writes performed before the external call is awaited. -/
def handleGenerateStart (s : AppState) : AppState :=
  if ((currentImage s).isNone || s.activeImageId.isNone) then
    { s with error := some msgNoImage }
  else if (jsTrim s.prompt).isEmpty then
    { s with error := some msgNoPrompt }
  else if s.editHotspot.isNone then
    { s with error := some msgNoHotspot }
  else
    { s with isLoading := true, loadingMessage := msgWorking, error := none }

/-- Whether `handleGenerate` reaches the `generateEditedImage` network
call: true exactly when all three preconditions pass. -/
def generateDispatches (s : AppState) : Bool :=
  !((currentImage s).isNone || s.activeImageId.isNone) &&
    !(jsTrim s.prompt).isEmpty && !s.editHotspot.isNone

/-- The continuation of `handleGenerate` after the awaited call settles:
on success the produced file becomes the pending preview and the hotspot
is cleared; on failure the wrapped error is shown; `finally` clears the
loading flag. -/
def handleGenerateResume (call : CallResult)
    (s : AppState) : AppState :=
  match call with
  | .ok newFile =>
    { s with
      previewImage := some newFile
      editHotspot := none
      displayHotspot := none
      isLoading := false }
  | .error m =>
    { s with error := some (msgGenerateFailed m), isLoading := false }

/-- `handleGenerate` run without interleaving: the precondition phase
followed, when the call is dispatched, by the continuation applied to the
call's settled outcome. -/
def handleGenerate (call : CallResult) (s : AppState) : AppState :=
  if generateDispatches s then handleGenerateResume call (handleGenerateStart s)
  else handleGenerateStart s

/-- `targets = images.filter(img => selectedImageIds.has(img.id))`. -/
def batchTargets (s : AppState) : List ImageState :=
  s.images.filter (fun img => decide (img.id ∈ s.selectedImageIds))

/-- The per-settled-result bookkeeping of `handleBatchOperation`: the
successes as an id-keyed association list (the `newImageFiles` map). -/
def batchSuccesses (settled : List (ImageState × CallResult)) :
    List (String × FileBlob) :=
  settled.filterMap (fun p =>
    match p.2 with
    | .ok v => some (p.1.id, v)
    | .error _ => none)

/-- The `failedEdits` name list of `handleBatchOperation`. -/
def batchFailures (settled : List (ImageState × CallResult)) :
    List String :=
  settled.filterMap (fun p =>
    match p.2 with
    | .ok _ => none
    | .error _ => some p.1.name)

/-- The per-image merge step of the batch commit (`newImageFiles.has` /
`newImageFiles.get`): branch-append the looked-up success, else keep. -/
def batchApply (nf : List (String × FileBlob)) (image : ImageState) :
    ImageState :=
  match nf.find? (fun q => q.1 == image.id) with
  | some q => appendBranch image q.2
  | none => image

/-- `handleBatchOperation(operation, prompt, operationName)`.  The settled
outcome of the external call for target `i` is `outcomes[i]` (the source
gathers them with `Promise.allSettled`, so `outcomes` has the same length
as the target list; the empty-`outcomes` fallback of the one-target branch
is unreachable under that length assumption).  Zero targets: precondition
error and return.  One target: await the single call; success opens the
pending preview, failure sets the wrapped error; no history mutation.
Several targets: commit every success into its image's history in one
`setImages` update, and report the aggregate error naming the failed
targets. -/
def handleBatchOperation (outcomes : List (CallResult))
    (opName : String) (s : AppState) : AppState :=
  let targets := batchTargets s
  if targets.length = 0 then
    { s with error := some (msgSelectAtLeastOne opName) }
  else if targets.length = 1 then
    match outcomes with
    | .ok v :: _ =>
      { s with
        isLoading := false
        loadingMessage := msgWorking
        error := none
        previewImage := some v }
    | .error m :: _ =>
      { s with
        isLoading := false
        loadingMessage := msgWorking
        error := some (msgSingleFailed opName m) }
    | [] =>
      { s with isLoading := false, loadingMessage := msgWorking, error := none }
  else
    let settled := targets.zip outcomes
    let newImageFiles := batchSuccesses settled
    let failedEdits := batchFailures settled
    { s with
      isLoading := false
      loadingMessage := msgWorking
      images :=
        if 0 < newImageFiles.length then
          s.images.map (fun image =>
            match newImageFiles.find? (fun q => q.1 == image.id) with
            | some q => appendBranch image q.2
            | none => image)
        else s.images
      error :=
        if 0 < failedEdits.length then
          some (msgBatchFailed opName failedEdits)
        else none }

/-- `handleUndo` — when undo is available and an image is active, move
the active image's cursor back by one and clear the hotspot. -/
def handleUndo (s : AppState) : AppState :=
  match s.activeImageId with
  | some aid =>
    if canUndo s then
      { s with
        images := s.images.map (fun img =>
          if img.id = aid then { img with historyIndex := img.historyIndex - 1 }
          else img)
        editHotspot := none
        displayHotspot := none }
    else s
  | none => s

/-- `handleRedo` — when redo is available and an image is active, move
the active image's cursor forward by one and clear the hotspot. -/
def handleRedo (s : AppState) : AppState :=
  match s.activeImageId with
  | some aid =>
    if canRedo s then
      { s with
        images := s.images.map (fun img =>
          if img.id = aid then { img with historyIndex := img.historyIndex + 1 }
          else img)
        editHotspot := none
        displayHotspot := none }
    else s
  | none => s

/-- `handleReset` — truncate the active image's history to its original
file with cursor 0; other images are mapped to themselves. -/
def handleReset (s : AppState) : AppState :=
  { s with
    images := s.images.map (fun img =>
      if some img.id = s.activeImageId then
        { img with history := [img.originalFile], historyIndex := 0 }
      else img)
    error := none
    editHotspot := none
    displayHotspot := none }

/-- `handleAcceptPreview` — if a preview exists and an image is active,
commit the pending file to the currently active image's history; always
clear the preview slot. -/
def handleAcceptPreview (s : AppState) : AppState :=
  match s.previewImage, s.activeImageId with
  | some p, some aid =>
    { s with images := addImageToHistory p aid s.images, previewImage := none }
  | _, _ => { s with previewImage := none }

/-- `handleCancelPreview` — discard the pending preview only. -/
def handleCancelPreview (s : AppState) : AppState :=
  { s with previewImage := none }

/-- `handleSelectImage(id)` — no-op when already active; otherwise switch
the active id and clear hotspot and error (the preview slot is NOT
touched by the source). -/
def handleSelectImage (id : String) (s : AppState) : AppState :=
  if some id = s.activeImageId then s
  else
    { s with
      activeImageId := some id
      editHotspot := none
      displayHotspot := none
      error := none }

/-- `images.find?` keyed by identity, for stating lookups. -/
def findImage (images : List ImageState) (id : String) : Option ImageState :=
  images.find? (fun img => img.id == id)

/-- One history-affecting user action, for invariant claims: a committed
edit appended to some image's stack, an undo, or a redo. -/
inductive HistOp where
  | append (imageId : String) (f : FileBlob)
  | undo
  | redo
deriving DecidableEq

/-- Apply one `HistOp` through the corresponding source handler. -/
def applyOp (op : HistOp) (s : AppState) : AppState :=
  match op with
  | .append imageId f => { s with images := addImageToHistory f imageId s.images }
  | .undo => handleUndo s
  | .redo => handleRedo s

/-- Apply a sequence of history operations left to right. -/
def applyOps (ops : List HistOp) (s : AppState) : AppState :=
  ops.foldl (fun s op => applyOp op s) s

/-- The History Stack invariant: entries never empty, cursor in range. -/
def ImageInv (img : ImageState) : Prop :=
  img.history ≠ [] ∧ img.historyIndex < img.history.length

/-- The collection invariant: distinct identities and every image's
History Stack well formed. -/
def StateInv (s : AppState) : Prop :=
  (s.images.map (fun i => i.id)).Nodup ∧ ∀ img ∈ s.images, ImageInv img

/-- Identity `id` names a present entry of the collection. -/
def hasId (images : List ImageState) (id : String) : Prop :=
  id ∈ images.map (fun i => i.id)

instance : DecidablePred (ImageInv) := fun img => by
  unfold ImageInv; infer_instance

instance (s : AppState) : Decidable (StateInv s) := by
  unfold StateInv; infer_instance

instance (images : List ImageState) (id : String) :
    Decidable (hasId images id) := by
  unfold hasId; infer_instance
/-- The active id, when set, names a present entry. -/
def activeConsistent (s : AppState) : Prop :=
  match s.activeImageId with
  | some a => hasId s.images a
  | none => True

instance (s : AppState) : Decidable (activeConsistent s) := by
  unfold activeConsistent
  cases s.activeImageId <;> infer_instance

/-! ### Concrete fixtures used by witnesses and counterexamples -/

/-- Image A: three-entry history with the cursor in the middle. -/
def wA : ImageState :=
  { id := "A", name := "a.png", originalFile := 10
    history := [10, 11, 12], historyIndex := 1 }

/-- Image B: fresh single-entry history. -/
def wB : ImageState :=
  { id := "B", name := "b.png", originalFile := 20
    history := [20], historyIndex := 0 }

/-- Image C: two-entry history with the cursor at the end. -/
def wC : ImageState :=
  { id := "C", name := "c.png", originalFile := 30
    history := [30, 31], historyIndex := 1 }

/-- A populated working state: three images, A active, all selected. -/
def wState : AppState :=
  { images := [wA, wB, wC], activeImageId := some "A"
    selectedImageIds := ["A", "B", "C"], prompt := "p", isLoading := false
    loadingMessage := msgWorking, error := none, editHotspot := some (1, 2)
    displayHotspot := some (3, 4), previewImage := none }

/-- The initial component state: no images, nothing active or selected. -/
def initState : AppState :=
  { images := [], activeImageId := none, selectedImageIds := [], prompt := ""
    isLoading := false, loadingMessage := msgWorking, error := none
    editHotspot := none, displayHotspot := none, previewImage := none }

/-! ### List helper lemmas -/

theorem find?_map_pres (g : ImageState → ImageState)
    (hg : ∀ x, (g x).id = x.id) (tid : String) :
    ∀ l : List ImageState,
      (l.map g).find? (fun i => i.id == tid) =
        (l.find? (fun i => i.id == tid)).map g := by
  intro l
  induction l with
  | nil => rfl
  | cons a t ih =>
    simp only [List.map_cons, List.find?_cons, hg a]
    cases h : (a.id == tid) with
    | true => rfl
    | false => exact ih

theorem find?_eq_some_of_mem_nodup :
    ∀ {l : List ImageState} {t : ImageState}, t ∈ l →
      (l.map (fun i => i.id)).Nodup →
      l.find? (fun i => i.id == t.id) = some t := by
  intro l
  induction l with
  | nil => intro t h; exact absurd h (List.not_mem_nil t)
  | cons a rest ih =>
    intro t hmem hnodup
    simp only [List.map_cons, List.nodup_cons] at hnodup
    rcases List.mem_cons.mp hmem with heq | hrest
    · subst heq
      simp [List.find?_cons]
    · have hne : a.id ≠ t.id := by
        intro hid
        exact hnodup.1 (hid ▸ (List.mem_map.mpr ⟨t, hrest, rfl⟩))
      have : (a.id == t.id) = false := by
        exact beq_false_of_ne hne
      simp only [List.find?_cons, this]
      exact ih hrest hnodup.2

theorem eq_of_mem_of_id_eq {l : List ImageState}
    (hnodup : (l.map (fun i => i.id)).Nodup)
    {a b : ImageState} (ha : a ∈ l) (hb : b ∈ l) (hid : a.id = b.id) :
    a = b := by
  have h1 := find?_eq_some_of_mem_nodup ha hnodup
  have h2 := find?_eq_some_of_mem_nodup hb hnodup
  rw [hid] at h1
  exact Option.some.inj (h1.symm.trans h2)

theorem batchSuccesses_find?_none :
    ∀ {lt : List (ImageState × CallResult)} {tid : String},
      tid ∉ lt.map (fun p => p.1.id) →
      (batchSuccesses lt).find? (fun q => q.1 == tid) = none := by
  intro lt
  induction lt with
  | nil => intro tid _; rfl
  | cons p rest ih =>
    intro tid h
    simp only [List.map_cons, List.mem_cons, not_or] at h
    have hne : (p.1.id == tid) = false := beq_false_of_ne (fun he => h.1 he.symm)
    cases ho : p.2 with
    | ok v =>
      simp only [batchSuccesses, List.filterMap_cons, ho, List.find?_cons, hne]
      exact ih h.2
    | error m =>
      simp only [batchSuccesses, List.filterMap_cons, ho]
      exact ih h.2

theorem batchSuccesses_find?_of_mem :
    ∀ {lt : List (ImageState × CallResult)}
      {t : ImageState} {o : CallResult},
      (t, o) ∈ lt → (lt.map (fun p => p.1.id)).Nodup →
      (batchSuccesses lt).find? (fun q => q.1 == t.id) =
        (match o with
         | .ok v => some (t.id, v)
         | .error _ => none) := by
  intro lt
  induction lt with
  | nil => intro t o h; exact absurd h (List.not_mem_nil _)
  | cons p rest ih =>
    intro t o hmem hnodup
    simp only [List.map_cons, List.nodup_cons] at hnodup
    rcases List.mem_cons.mp hmem with heq | hrest
    · subst heq
      have hnin : t.id ∉ rest.map (fun p => p.1.id) := hnodup.1
      cases o with
      | ok v =>
        simp [batchSuccesses, List.filterMap_cons, List.find?_cons]
      | error m =>
        simp only [batchSuccesses, List.filterMap_cons]
        exact batchSuccesses_find?_none hnin
    · have hne : p.1.id ≠ t.id := by
        intro hid
        exact hnodup.1 (hid ▸ (List.mem_map.mpr ⟨(t, o), hrest, rfl⟩))
      have hne' : (p.1.id == t.id) = false := beq_false_of_ne hne
      cases ho : p.2 with
      | ok v =>
        simp only [batchSuccesses, List.filterMap_cons, ho, List.find?_cons, hne']
        exact ih hrest hnodup.2
      | error m =>
        simp only [batchSuccesses, List.filterMap_cons, ho]
        exact ih hrest hnodup.2

/-! ### Claim theorems -/

/-- C2: appending a new snapshot to an image's History Stack first
discards all entries after the cursor, then appends, then sets the cursor
to the new last index (here: cursor + 1). -/
theorem C2_append_branches (images : List ImageState) (img : ImageState)
    (f : FileBlob) (hmem : img ∈ images)
    (hnodup : (images.map (fun i => i.id)).Nodup)
    (hc : img.historyIndex < img.history.length) :
    findImage (addImageToHistory f img.id images) img.id =
      some { img with
             history := img.history.take (img.historyIndex + 1) ++ [f]
             historyIndex := img.historyIndex + 1 } := by
  unfold findImage addImageToHistory
  have hg : ∀ x : ImageState,
      (if x.id = img.id then appendBranch x f else x).id = x.id := by
    intro x
    by_cases h : x.id = img.id <;> simp [h, appendBranch]
  rw [find?_map_pres _ hg img.id images,
    find?_eq_some_of_mem_nodup hmem hnodup]
  simp only [Option.map_some', if_pos rfl]
  congr 1
  unfold appendBranch
  have hlen : (img.history.take (img.historyIndex + 1)).length =
      img.historyIndex + 1 := by
    rw [List.length_take]
    exact min_eq_left (Nat.succ_le_of_lt hc)
  simp [hlen]

/-- C2 witness: entries [10, 11, 12] at cursor 1 (as after one undo from
cursor 2), appending 40 yields entries [10, 11, 40] with cursor 2. -/
theorem C2_witness :
    wA ∈ [wA] ∧ ([wA].map (fun i => i.id)).Nodup ∧
      wA.historyIndex < wA.history.length ∧
      findImage (addImageToHistory 40 wA.id [wA]) wA.id =
        some { wA with history := [10, 11, 40], historyIndex := 2 } :=
  ⟨by decide, by decide, by decide, by
    have h := C2_append_branches [wA] wA 40 (by decide) (by decide) (by decide)
    exact h.trans (by decide)⟩

/-- C9: accepting a preview while no image is active only clears the
preview slot; the image collection (hence every History Stack) is
untouched. -/
theorem C9_accept_without_active (s : AppState) (p : FileBlob)
    (hp : s.previewImage = some p) (ha : s.activeImageId = none) :
    handleAcceptPreview s = { s with previewImage := none } := by
  unfold handleAcceptPreview
  rw [hp, ha]

/-- C9 witness: an orphaned preview on the empty collection is dropped. -/
theorem C9_witness :
    ({ initState with previewImage := some 5 } : AppState).previewImage = some 5 ∧
    ({ initState with previewImage := some 5 } : AppState).activeImageId = none ∧
    handleAcceptPreview { initState with previewImage := some 5 } =
      { initState with previewImage := none } :=
  ⟨rfl, rfl,
    C9_accept_without_active { initState with previewImage := some 5 } 5 rfl rfl⟩

/-- C3: a single-target dispatch never mutates any History Stack: the
image collection is unchanged, a success only populates the pending
preview, a failure produces exactly the wrapped error with the loading
flag cleared and nothing else, and cancelling a preview leaves the
collection byte-for-byte unchanged. -/
theorem C3_single_dispatch (s : AppState) (o : CallResult)
    (opName : String) (h1 : (batchTargets s).length = 1) :
    (handleBatchOperation [o] opName s).images = s.images ∧
    (∀ v, o = CallResult.ok v →
      (handleBatchOperation [o] opName s).previewImage = some v ∧
      (handleBatchOperation [o] opName s).error = none) ∧
    (∀ m, o = CallResult.error m →
      handleBatchOperation [o] opName s =
        { s with
            isLoading := false
            loadingMessage := msgWorking
            error := some (msgSingleFailed opName m) }) ∧
    (∀ t : AppState, (handleCancelPreview t).images = t.images) := by
  have h0 : ¬ (batchTargets s).length = 0 := by omega
  simp only [handleBatchOperation]
  rw [if_neg h0, if_pos h1]
  cases o with
  | ok v =>
    refine ⟨rfl, ?_, ?_, fun _ => rfl⟩
    · intro v' h
      cases h
      exact ⟨rfl, rfl⟩
    · intro m h
      exact absurd h (by simp)
  | error m =>
    refine ⟨rfl, ?_, ?_, fun _ => rfl⟩
    · intro v h
      exact absurd h (by simp)
    · intro m' h
      cases h
      rfl

/-- C3 witness: one selected target whose call fails: collection equal
before and after. -/
theorem C3_witness :
    (batchTargets { wState with selectedImageIds := ["B"] }).length = 1 ∧
    (handleBatchOperation [CallResult.error "x"] "filter"
        { wState with selectedImageIds := ["B"] }).images = wState.images :=
  ⟨by decide,
    (C3_single_dispatch { wState with selectedImageIds := ["B"] }
      (CallResult.error "x") "filter" (by decide)).1⟩

/-- C10: an append addressed to one image, and an undo / redo / reset
addressed to the active image, leave every other image's record (id,
name, original, entries, cursor) unchanged, position by position. -/
theorem C10_frame_effect (s : AppState) (f : FileBlob) (aid : String)
    (i : Nat) (hi : i < s.images.length) :
    ((s.images.get ⟨i, hi⟩).id ≠ aid →
      (addImageToHistory f aid s.images).get? i = some (s.images.get ⟨i, hi⟩)) ∧
    (s.activeImageId ≠ some (s.images.get ⟨i, hi⟩).id →
      ((handleUndo s).images.get? i = some (s.images.get ⟨i, hi⟩) ∧
       (handleRedo s).images.get? i = some (s.images.get ⟨i, hi⟩) ∧
       (handleReset s).images.get? i = some (s.images.get ⟨i, hi⟩))) := by
  have hbase : s.images.get? i = some (s.images.get ⟨i, hi⟩) :=
    List.get?_eq_get hi
  constructor
  · intro hne
    unfold addImageToHistory
    rw [List.get?_map, hbase, Option.map_some', if_neg hne]
  · intro hact
    refine ⟨?_, ?_, ?_⟩
    · rcases ha : s.activeImageId with _ | aid'
      · simp only [handleUndo, ha]
        exact hbase
      · have hne : (s.images.get ⟨i, hi⟩).id ≠ aid' := fun h => hact (by rw [ha, h])
        simp only [handleUndo, ha]
        by_cases hcu : canUndo s = true
        · simp only [if_pos hcu, List.get?_map, hbase, Option.map_some', if_neg hne]
        · simp only [if_neg hcu]
          exact hbase
    · rcases ha : s.activeImageId with _ | aid'
      · simp only [handleRedo, ha]
        exact hbase
      · have hne : (s.images.get ⟨i, hi⟩).id ≠ aid' := fun h => hact (by rw [ha, h])
        simp only [handleRedo, ha]
        by_cases hcr : canRedo s = true
        · simp only [if_pos hcr, List.get?_map, hbase, Option.map_some', if_neg hne]
        · simp only [if_neg hcr]
          exact hbase
    · have hne : ¬ some (s.images.get ⟨i, hi⟩).id = s.activeImageId :=
        fun h => hact h.symm
      simp only [handleReset, List.get?_map, hbase, Option.map_some', if_neg hne]

/-- C10 witness: appending to A leaves B (position 1) unchanged. -/
theorem C10_witness :
    1 < wState.images.length ∧ wB.id ≠ "A" ∧
    (addImageToHistory 7 "A" wState.images).get? 1 = some wB := by
  refine ⟨by decide, by decide, ?_⟩
  have h := (C10_frame_effect wState 7 "A" 1 (by decide)).1 (by decide)
  exact h.trans (by decide)

/-- C4 counterexample: uploading two files creates two image identities
(both present in the collection), but only the first is inserted into the
selection set — the claim that every new identity is inserted fails. -/
theorem C4_counterexample :
    hasId (handleImageUploads [("x1", "a.png", 1), ("x2", "b.png", 2)]
      initState).images "x1" ∧
    hasId (handleImageUploads [("x1", "a.png", 1), ("x2", "b.png", 2)]
      initState).images "x2" ∧
    "x1" ∈ (handleImageUploads [("x1", "a.png", 1), ("x2", "b.png", 2)]
      initState).selectedImageIds ∧
    "x2" ∉ (handleImageUploads [("x1", "a.png", 1), ("x2", "b.png", 2)]
      initState).selectedImageIds := by decide

/-- C4 amended: for every upload batch of one or more files, exactly the
FIRST newly created image identity is inserted into the selection set
(the remaining new identities are not added), while all uploaded files
are appended to the collection. -/
theorem C4_amended_first_id_selected (s : AppState)
    (u : String × String × FileBlob)
    (rest : List (String × String × FileBlob)) :
    (handleImageUploads (u :: rest) s).selectedImageIds =
      listInsert u.1 s.selectedImageIds ∧
    (handleImageUploads (u :: rest) s).images =
      s.images ++ (u :: rest).map (fun v => mkImageState v.1 v.2.1 v.2.2) :=
  ⟨rfl, rfl⟩

/-- C5 counterexample: a retouch dispatched while A was active; during the
await the user switches the active image to B; the call completes and the
preview is accepted: the snapshot is appended to B's History Stack and A's
stack is unchanged, refuting the claim that the result is applied to the
dispatch-time target A. -/
theorem C5_counterexample :
    findImage (handleAcceptPreview (handleSelectImage "B"
        (handleGenerateResume (CallResult.ok 42)
          (handleGenerateStart wState)))).images "A" = some wA ∧
    findImage (handleAcceptPreview (handleSelectImage "B"
        (handleGenerateResume (CallResult.ok 42)
          (handleGenerateStart wState)))).images "B" =
      some { wB with history := [20, 42], historyIndex := 1 } := by decide

/-- C5 amended: accepting the Pending Preview appends the pending snapshot
to the History Stack of the image that is active AT ACCEPT TIME (and
clears the preview); when the active image was switched between dispatch
and accept, the snapshot therefore lands on the newly active image, not on
the dispatch-time target. -/
theorem C5_amended_accept_targets_active (s : AppState) (p : FileBlob)
    (aid : String) (hp : s.previewImage = some p)
    (ha : s.activeImageId = some aid) :
    (handleAcceptPreview s).images = addImageToHistory p aid s.images ∧
    (handleAcceptPreview s).previewImage = none := by
  unfold handleAcceptPreview
  rw [hp, ha]
  exact ⟨rfl, rfl⟩

/-- C5 witness: accepting a pending snapshot while A is active commits it
through `addImageToHistory` to A. -/
theorem C5_witness :
    ({ wState with previewImage := some 42 } : AppState).previewImage = some 42 ∧
    ({ wState with previewImage := some 42 } : AppState).activeImageId = some "A" ∧
    (handleAcceptPreview { wState with previewImage := some 42 }).images =
      addImageToHistory 42 "A" wState.images :=
  ⟨rfl, rfl,
    (C5_amended_accept_targets_active { wState with previewImage := some 42 }
      42 "A" rfl rfl).1⟩

/-- C6: the three retouch preconditions are checked in the fixed order
(active image present → instruction non-empty → focus point present); the
first unmet one is reported with its distinct error message, the state is
otherwise untouched, and the transform is not invoked (the handler never
reaches the network call, so its result does not depend on the call's
outcome). -/
theorem C6_retouch_preconditions (s : AppState) (o o' : CallResult) :
    (((currentImage s).isNone || s.activeImageId.isNone) = true →
      generateDispatches s = false ∧
      handleGenerate o s = { s with error := some msgNoImage } ∧
      handleGenerate o s = handleGenerate o' s) ∧
    (((currentImage s).isNone || s.activeImageId.isNone) = false →
      (jsTrim s.prompt).isEmpty = true →
      generateDispatches s = false ∧
      handleGenerate o s = { s with error := some msgNoPrompt } ∧
      handleGenerate o s = handleGenerate o' s) ∧
    (((currentImage s).isNone || s.activeImageId.isNone) = false →
      (jsTrim s.prompt).isEmpty = false →
      s.editHotspot.isNone = true →
      generateDispatches s = false ∧
      handleGenerate o s = { s with error := some msgNoHotspot } ∧
      handleGenerate o s = handleGenerate o' s) := by
  refine ⟨?_, ?_, ?_⟩
  · intro h1
    have hd : generateDispatches s = false := by
      simp [generateDispatches, h1]
    refine ⟨hd, ?_, ?_⟩ <;>
      simp [handleGenerate, hd, handleGenerateStart, h1]
  · intro h1 h2
    have hd : generateDispatches s = false := by
      simp [generateDispatches, h1, h2]
    refine ⟨hd, ?_, ?_⟩ <;>
      simp [handleGenerate, hd, handleGenerateStart, h1, h2]
  · intro h1 h2 h3
    have hd : generateDispatches s = false := by
      simp [generateDispatches, h1, h2, h3]
    refine ⟨hd, ?_, ?_⟩ <;>
      simp [handleGenerate, hd, handleGenerateStart, h1, h2, h3]

/-- C6 witness: with no image loaded, the dispatcher reports the distinct
no-image error and never invokes the transform. -/
theorem C6_witness :
    ((currentImage initState).isNone || initState.activeImageId.isNone) = true ∧
    generateDispatches initState = false ∧
    handleGenerate (CallResult.ok 5) initState =
      { initState with error := some msgNoImage } := by
  refine ⟨by decide, ?_, ?_⟩
  · exact ((C6_retouch_preconditions initState (CallResult.ok 5)
      (CallResult.error "e")).1 (by decide)).1
  · exact ((C6_retouch_preconditions initState (CallResult.ok 5)
      (CallResult.error "e")).1 (by decide)).2.1

/-- C8: from a consistent collection state (selection and active id only
reference present entries), deleting any image removes its id from the
selection, reassigns the active id to the first remaining entry (or none)
when the deleted image was active, and leaves active id and selection
referencing only present entries. -/
theorem C8_delete_consistency (s : AppState) (idDel : String)
    (hsel : ∀ id ∈ s.selectedImageIds, hasId s.images id)
    (hact : activeConsistent s) :
    ((s.activeImageId = some idDel →
      (handleDeleteImage idDel s).activeImageId =
        ((handleDeleteImage idDel s).images.head?).map (fun i => i.id)) ∧
     idDel ∉ (handleDeleteImage idDel s).selectedImageIds ∧
     (∀ id ∈ (handleDeleteImage idDel s).selectedImageIds,
        hasId (handleDeleteImage idDel s).images id) ∧
     activeConsistent (handleDeleteImage idDel s)) := by
  have hmap : ∀ id : String, id ≠ idDel → hasId s.images id →
      hasId (s.images.filter (fun img => decide (img.id ≠ idDel))) id := by
    intro id hne hin
    rcases List.mem_map.mp hin with ⟨img, hmem, hid⟩
    exact List.mem_map.mpr ⟨img,
      List.mem_filter.mpr ⟨hmem, by simp [hid, hne]⟩, hid⟩
  refine ⟨?_, ?_, ?_, ?_⟩
  · intro h
    simp only [handleDeleteImage, if_pos h]
  · simp only [handleDeleteImage, List.mem_filter]
    intro h
    simp at h
  · intro id hid
    simp only [handleDeleteImage, List.mem_filter, decide_eq_true_eq] at hid
    exact hmap id hid.2 (hsel id hid.1)
  · unfold activeConsistent at hact ⊢
    simp only [handleDeleteImage]
    by_cases h : s.activeImageId = some idDel
    · rw [if_pos h]
      cases hh : (s.images.filter (fun img => decide (img.id ≠ idDel))).head? with
      | none => simp
      | some img =>
        simp only [Option.map_some']
        rcases List.head?_eq_some_iff.mp hh with ⟨ys, hys⟩
        exact List.mem_map.mpr ⟨img, by rw [hys]; exact List.mem_cons_self img ys, rfl⟩
    · rw [if_neg h]
      cases ha : s.activeImageId with
      | none => trivial
      | some a =>
        rw [ha] at hact h
        have hne : a ≠ idDel := fun he => h (by rw [he])
        exact hmap a hne hact

/-- C8 witness: deleting active A from [A, B, C] makes B active, drops A
from the selection, and leaves a consistent state. -/
theorem C8_witness :
    (∀ id ∈ wState.selectedImageIds, hasId wState.images id) ∧
    activeConsistent wState ∧
    (handleDeleteImage "A" wState).activeImageId = some "B" ∧
    "A" ∉ (handleDeleteImage "A" wState).selectedImageIds := by
  refine ⟨by decide, by decide, ?_, ?_⟩
  · have h := ((C8_delete_consistency wState "A" (by decide) (by decide)).1) rfl
    exact h.trans (by decide)
  · exact (C8_delete_consistency wState "A" (by decide) (by decide)).2.1

/-- The append step always restores the History Stack invariant. -/
theorem appendBranch_inv (img : ImageState) (f : FileBlob) :
    ImageInv (appendBranch img f) := by
  constructor
  · simp [appendBranch]
  · simp only [appendBranch, List.length_append, List.length_take,
      List.length_singleton]
    omega

/-- Identity-preserving maps keep the identity list (hence its Nodup). -/
theorem map_ids_pres (g : ImageState → ImageState)
    (hg : ∀ x, (g x).id = x.id) (l : List ImageState) :
    (l.map g).map (fun i => i.id) = l.map (fun i => i.id) := by
  rw [List.map_map]
  exact List.map_congr_left (fun x _ => hg x)

/-- Every history operation preserves the collection invariant. -/
theorem applyOp_inv (op : HistOp) (s : AppState) (h : StateInv s) :
    StateInv (applyOp op s) := by
  obtain ⟨hnodup, hinv⟩ := h
  cases op with
  | append imageId f =>
    constructor
    · simp only [applyOp, addImageToHistory]
      rw [map_ids_pres _ (fun x => by
        by_cases hx : x.id = imageId <;> simp [hx, appendBranch])]
      exact hnodup
    · intro img hmem
      simp only [applyOp, addImageToHistory] at hmem
      rcases List.mem_map.mp hmem with ⟨x, hx, rfl⟩
      by_cases hxid : x.id = imageId
      · rw [if_pos hxid]
        exact appendBranch_inv x f
      · rw [if_neg hxid]
        exact hinv x hx
  | undo =>
    cases ha : s.activeImageId with
    | none =>
      simp only [applyOp, handleUndo, ha]
      exact ⟨hnodup, hinv⟩
    | some aid =>
      simp only [applyOp, handleUndo, ha]
      by_cases hcu : canUndo s = true
      · rw [if_pos hcu]
        constructor
        · rw [map_ids_pres _ (fun x => by
            by_cases hx : x.id = aid <;> simp [hx])]
          exact hnodup
        · intro img hmem
          rcases List.mem_map.mp hmem with ⟨x, hx, rfl⟩
          have hxinv := hinv x hx
          by_cases hxid : x.id = aid
          · rw [if_pos hxid]
            exact ⟨hxinv.1, lt_of_le_of_lt (Nat.sub_le _ _) hxinv.2⟩
          · rw [if_neg hxid]
            exact hxinv
      · rw [if_neg hcu]
        exact ⟨hnodup, hinv⟩
  | redo =>
    cases ha : s.activeImageId with
    | none =>
      simp only [applyOp, handleRedo, ha]
      exact ⟨hnodup, hinv⟩
    | some aid =>
      simp only [applyOp, handleRedo, ha]
      by_cases hcr : canRedo s = true
      · rw [if_pos hcr]
        constructor
        · rw [map_ids_pres _ (fun x => by
            by_cases hx : x.id = aid <;> simp [hx])]
          exact hnodup
        · intro img hmem
          rcases List.mem_map.mp hmem with ⟨x, hx, rfl⟩
          have hxinv := hinv x hx
          by_cases hxid : x.id = aid
          · rw [if_pos hxid]
            refine ⟨hxinv.1, ?_⟩
            have hfind : s.images.find? (fun i => i.id == x.id) = some x :=
              find?_eq_some_of_mem_nodup hx hnodup
            have hacts : activeImageState s = some x := by
              simp only [activeImageState, ha]
              rw [← hxid]
              exact hfind
            have hlt : x.historyIndex < x.history.length - 1 := by
              have hcr' := hcr
              simp only [canRedo, hacts] at hcr'
              exact of_decide_eq_true hcr'
            simp only []
            omega
          · rw [if_neg hxid]
            exact hxinv
      · rw [if_neg hcr]
        exact ⟨hnodup, hinv⟩

/-- Invariant preservation over a whole operation sequence. -/
theorem applyOps_inv (ops : List HistOp) (s : AppState) (h : StateInv s) :
    StateInv (applyOps ops s) := by
  induction ops generalizing s with
  | nil => exact h
  | cons op rest ih => exact ih (applyOp op s) (applyOp_inv op s h)

/-- C7: over every sequence of append / undo / redo operations on a well
formed collection, every image's entries list stays non-empty and its
cursor stays within [0, length - 1]; moreover undo is a no-op when the
active image's cursor is 0 and redo is a no-op when it is at the last
index. -/
theorem C7_history_invariant (s : AppState) (ops : List HistOp)
    (hs : StateInv s) :
    StateInv (applyOps ops s) ∧
    (∀ a, activeImageState s = some a → a.historyIndex = 0 →
      handleUndo s = s) ∧
    (∀ a, activeImageState s = some a →
      a.historyIndex = a.history.length - 1 → handleRedo s = s) := by
  refine ⟨applyOps_inv ops s hs, ?_, ?_⟩
  · intro a ha h0
    have hcu : canUndo s = false := by
      simp [canUndo, ha, h0]
    cases hact : s.activeImageId with
    | none => simp only [handleUndo, hact]
    | some aid => simp [handleUndo, hact, hcu]
  · intro a ha hlast
    have hcr : canRedo s = false := by
      simp [canRedo, ha, hlast]
    cases hact : s.activeImageId with
    | none => simp only [handleRedo, hact]
    | some aid => simp [handleRedo, hact, hcr]

/-- C7 witness: a fresh collection state satisfies the invariant and keeps
it over an append / undo / redo / undo sequence. -/
theorem C7_witness :
    StateInv wState ∧
    StateInv (applyOps [HistOp.append "A" 99, HistOp.undo, HistOp.redo,
      HistOp.undo] wState) :=
  ⟨by decide,
    (C7_history_invariant wState [HistOp.append "A" 99, HistOp.undo,
      HistOp.redo, HistOp.undo] (by decide)).1⟩

/-- The merge step preserves each image's identity. -/
theorem batchApply_id (nf : List (String × FileBlob)) (x : ImageState) :
    (batchApply nf x).id = x.id := by
  unfold batchApply
  cases h : nf.find? (fun q => q.1 == x.id) with
  | none => simp [h]
  | some q => simp [h, appendBranch]

/-- The image collection a multi-target batch leaves behind. -/
theorem handleBatchOperation_multi_images (outcomes : List CallResult)
    (opName : String) (s : AppState)
    (h0 : ¬ (batchTargets s).length = 0)
    (h1 : ¬ (batchTargets s).length = 1) :
    (handleBatchOperation outcomes opName s).images =
      (if 0 < (batchSuccesses ((batchTargets s).zip outcomes)).length then
        s.images.map
          (batchApply (batchSuccesses ((batchTargets s).zip outcomes)))
      else s.images) := by
  simp only [handleBatchOperation]
  rw [if_neg h0, if_neg h1]
  rfl

/-- The error a multi-target batch reports. -/
theorem handleBatchOperation_multi_error (outcomes : List CallResult)
    (opName : String) (s : AppState)
    (h0 : ¬ (batchTargets s).length = 0)
    (h1 : ¬ (batchTargets s).length = 1) :
    (handleBatchOperation outcomes opName s).error =
      (if 0 < (batchFailures ((batchTargets s).zip outcomes)).length then
        some (msgBatchFailed opName
          (batchFailures ((batchTargets s).zip outcomes)))
      else none) := by
  simp only [handleBatchOperation]
  rw [if_neg h0, if_neg h1]

/-- C1: a batch dispatch over more than one selected target, settled with
one outcome per target: every target whose call succeeded has exactly one
new snapshot appended to its History Stack (branching at its cursor),
every target whose call failed is unchanged, every unselected image is
unchanged (all updates coming from the single state transition of the
multi-target branch), and the reported error is exactly the aggregate
message naming the failed targets (none when none failed). -/
theorem C1_batch_dispatch (s : AppState) (outcomes : List CallResult)
    (opName : String)
    (hN : 1 < (batchTargets s).length)
    (hlen : outcomes.length = (batchTargets s).length)
    (hnodup : (s.images.map (fun i => i.id)).Nodup) :
    (∀ t v, (t, CallResult.ok v) ∈ (batchTargets s).zip outcomes →
      findImage (handleBatchOperation outcomes opName s).images t.id =
        some (appendBranch t v)) ∧
    (∀ t m, (t, CallResult.error m) ∈ (batchTargets s).zip outcomes →
      findImage (handleBatchOperation outcomes opName s).images t.id =
        some t) ∧
    (∀ img ∈ s.images, img.id ∉ s.selectedImageIds →
      findImage (handleBatchOperation outcomes opName s).images img.id =
        some img) ∧
    (handleBatchOperation outcomes opName s).error =
      (if 0 < (batchFailures ((batchTargets s).zip outcomes)).length then
        some (msgBatchFailed opName
          (batchFailures ((batchTargets s).zip outcomes)))
      else none) := by
  have h0 : ¬ (batchTargets s).length = 0 := by omega
  have h1 : ¬ (batchTargets s).length = 1 := by omega
  have himg := handleBatchOperation_multi_images outcomes opName s h0 h1
  have herr := handleBatchOperation_multi_error outcomes opName s h0 h1
  have hznodup :
      (((batchTargets s).zip outcomes).map (fun p => p.1.id)).Nodup := by
    have hzfst : ((batchTargets s).zip outcomes).map (fun p => p.1) =
        batchTargets s :=
      List.map_fst_zip _ _ (le_of_eq hlen.symm)
    have heq : ((batchTargets s).zip outcomes).map (fun p => p.1.id) =
        (batchTargets s).map (fun i => i.id) := by
      rw [show (fun p : ImageState × CallResult => p.1.id) =
        (fun i : ImageState => i.id) ∘ (fun p : ImageState × CallResult => p.1)
        from rfl]
      rw [← List.map_map, hzfst]
    rw [heq]
    exact List.Nodup.sublist
      ((List.filter_sublist s.images).map (fun i => i.id)) hnodup
  have hg : ∀ x : ImageState,
      (batchApply (batchSuccesses ((batchTargets s).zip outcomes)) x).id =
        x.id :=
    batchApply_id (batchSuccesses ((batchTargets s).zip outcomes))
  refine ⟨?_, ?_, ?_, ?_⟩
  · intro t v hmem
    have ht : t ∈ batchTargets s := (List.mem_zip hmem).1
    have htimg : t ∈ s.images := (List.mem_filter.mp ht).1
    have hfind_t : s.images.find? (fun i => i.id == t.id) = some t :=
      find?_eq_some_of_mem_nodup htimg hnodup
    have hsucc : (batchSuccesses ((batchTargets s).zip outcomes)).find?
        (fun q => q.1 == t.id) = some (t.id, v) :=
      batchSuccesses_find?_of_mem hmem hznodup
    have hmem' : (t.id, v) ∈ batchSuccesses ((batchTargets s).zip outcomes) :=
      List.mem_filterMap.mpr ⟨(t, CallResult.ok v), hmem, rfl⟩
    have hpos : 0 < (batchSuccesses ((batchTargets s).zip outcomes)).length :=
      List.length_pos.mpr (List.ne_nil_of_mem hmem')
    rw [findImage, himg, if_pos hpos, find?_map_pres _ hg t.id s.images,
      hfind_t, Option.map_some']
    simp only [batchApply, hsucc]
  · intro t m hmem
    have ht : t ∈ batchTargets s := (List.mem_zip hmem).1
    have htimg : t ∈ s.images := (List.mem_filter.mp ht).1
    have hfind_t : s.images.find? (fun i => i.id == t.id) = some t :=
      find?_eq_some_of_mem_nodup htimg hnodup
    have hfail : (batchSuccesses ((batchTargets s).zip outcomes)).find?
        (fun q => q.1 == t.id) = none :=
      batchSuccesses_find?_of_mem hmem hznodup
    by_cases hpos :
        0 < (batchSuccesses ((batchTargets s).zip outcomes)).length
    · rw [findImage, himg, if_pos hpos, find?_map_pres _ hg t.id s.images,
        hfind_t, Option.map_some']
      simp only [batchApply, hfail]
    · rw [findImage, himg, if_neg hpos]
      exact hfind_t
  · intro img himgmem hsel
    have hfind_img : s.images.find? (fun i => i.id == img.id) = some img :=
      find?_eq_some_of_mem_nodup himgmem hnodup
    have hnotin : img.id ∉
        ((batchTargets s).zip outcomes).map (fun p => p.1.id) := by
      intro hmem'
      rcases List.mem_map.mp hmem' with ⟨p, hp, hpid⟩
      have hp1 : p.1 ∈ batchTargets s := (List.mem_zip hp).1
      have hp1sel : p.1.id ∈ s.selectedImageIds :=
        of_decide_eq_true (List.mem_filter.mp hp1).2
      rw [hpid] at hp1sel
      exact hsel hp1sel
    have hnone : (batchSuccesses ((batchTargets s).zip outcomes)).find?
        (fun q => q.1 == img.id) = none :=
      batchSuccesses_find?_none hnotin
    by_cases hpos :
        0 < (batchSuccesses ((batchTargets s).zip outcomes)).length
    · rw [findImage, himg, if_pos hpos, find?_map_pres _ hg img.id s.images,
        hfind_img, Option.map_some']
      simp only [batchApply, hnone]
    · rw [findImage, himg, if_neg hpos]
      exact hfind_img
  · exact herr

/-- C1 witness: three selected targets [A, B, C] with B's call rejecting:
A and C each gain exactly one snapshot, B is unchanged, the aggregate
error names exactly B. -/
theorem C1_witness :
    1 < (batchTargets wState).length ∧
    ([CallResult.ok 41, CallResult.error "boom",
      CallResult.ok 43] : List CallResult).length =
      (batchTargets wState).length ∧
    (wState.images.map (fun i => i.id)).Nodup ∧
    findImage (handleBatchOperation
      [CallResult.ok 41, CallResult.error "boom", CallResult.ok 43]
      "filter" wState).images wC.id = some (appendBranch wC 43) ∧
    findImage (handleBatchOperation
      [CallResult.ok 41, CallResult.error "boom", CallResult.ok 43]
      "filter" wState).images wB.id = some wB := by
  refine ⟨by decide, by decide, by decide, ?_, ?_⟩
  · exact (C1_batch_dispatch wState
      [CallResult.ok 41, CallResult.error "boom", CallResult.ok 43]
      "filter" (by decide) (by decide) (by decide)).1 wC 43 (by decide)
  · exact (C1_batch_dispatch wState
      [CallResult.ok 41, CallResult.error "boom", CallResult.ok 43]
      "filter" (by decide) (by decide) (by decide)).2.1 wB "boom" (by decide)
